import Mathlib

/-!
# Olive frame export: `VideoRendererDownloadThread` and `PixelService`

A shallow embedding of `src/app/render/backend/videorendererdownloadthread.cpp`
(`Queue`, `Cancel`, `ProcessLoop`) together with the buffer sizing functions
declared in `src/app/render/pixelservice.h`.

The worker thread is a small-step machine over the program points of
`ProcessLoop`; the producer (`Queue`) and the canceller (`Cancel`) are
environment actions interleaved with the worker's steps by a schedule.
The mutex `texture_queue_lock_` is respected: `Queue` and the locked part of
`Cancel` are enabled only at program points where the worker does not hold it.
Every call the worker makes to an outside library (OpenGL, OpenImageIO, Qt
signals, logging) is recorded, with its arguments, in a trace. Pixel data is
not part of the trace.
-/

namespace Olive

/-! ## Data model -/

/-- Identifier of a member of `olive::PixelFormat`, the closed enumeration of
supported formats (pixelformat.h is not among the sources). -/
abbrev PixelFormat := Nat

/-- The fields of a `RenderTexture` that `ProcessLoop` reads:
`texture()`, `width()`, `height()`. -/
structure RenderTexture where
  texture : Nat
  width : Int
  height : Int
deriving DecidableEq, Repr

/-- One element of `texture_queue_`: `{texture, fn, hash}` (line 21). -/
structure DownloadQueueEntry where
  texture : RenderTexture
  filename : String
  hash : List Nat
deriving DecidableEq, Repr

/-- The fields of `VideoRenderingParams` that `ProcessLoop` reads. -/
structure VideoRenderingParams where
  width : Int
  height : Int
  format : PixelFormat
deriving DecidableEq, Repr

/-! ## PixelService -/

/-- Modelled from the spec: the per-format table behind
`PixelService::BytesPerPixel` (pixelservice.cpp and pixelformat.h are not among
the sources): the number of bytes per pixel of each member of the closed
enumeration of supported formats. -/
abbrev FormatTable := PixelFormat → Int

/-- Modelled from the spec: `PixelService::BytesPerPixel`, declared in
pixelservice.h as `static int BytesPerPixel(const olive::PixelFormat&)`; its
body is not among the sources. A pure, total function over the supported
formats. -/
def BytesPerPixel (table : FormatTable) (format : PixelFormat) : Int :=
  table format

/-- Modelled from the spec: `PixelService::GetBufferSize`, declared in
pixelservice.h as `static int GetBufferSize(format, width, height)`; its body
is not among the sources. The spec: "`GetBufferSize` must equal
`width * height * BytesPerPixel(format)` exactly". -/
def GetBufferSize (table : FormatTable) (format : PixelFormat) (width height : Int) : Int :=
  width * height * BytesPerPixel table format

/-! ## Calls recorded by the worker -/

/-- The outside calls of `ProcessLoop`, with their arguments. -/
inductive Event where
  /-- Line 44: `glGenFramebuffers(1, &read_buffer_)`. -/
  | glGenFramebuffers
  /-- Lines 84 and 106: `glBindFramebuffer(GL_READ_FRAMEBUFFER, fb)`. -/
  | glBindFramebuffer (fb : Nat)
  /-- Lines 86 and 100: `glFramebufferTexture2D(GL_READ_FRAMEBUFFER,
  GL_COLOR_ATTACHMENT0, GL_TEXTURE_2D, tex, 0)`. -/
  | glFramebufferTexture2D (tex : Nat)
  /-- Line 92: `glReadPixels(0, 0, width, height, ..., data_buffer.data())`. -/
  | glReadPixels (width height : Int)
  /-- Line 123: `glDeleteFramebuffers(1, &read_buffer_)`. -/
  | glDeleteFramebuffers
  /-- Line 78: `texture_queue_.takeFirst()` and the entry it returned. -/
  | takeFirst (e : DownloadQueueEntry)
  /-- Line 113: `out->open(fn, spec)` and the value it returned. -/
  | out_open (fn : String) (ok : Bool)
  /-- Line 114: `out->write_image(..)` and the value it returned. -/
  | out_write_image (fn : String) (ok : Bool)
  /-- Line 115: `out->close()`. -/
  | out_close (fn : String)
  /-- Line 117: `emit Downloaded(entry.hash)`. -/
  | Downloaded (hash : List Nat)
  /-- Line 119: the `qWarning()` message "Failed to open output file" with the
  entry's filename. -/
  | qWarning (fn : String)
deriving DecidableEq, Repr

/-- What the worker is given from outside: the renderer's parameters, the
framebuffer name OpenGL hands out, the format table, and the behaviour of the
image writer for each filename. -/
structure Env where
  params : VideoRenderingParams
  table : FormatTable
  /-- The name `glGenFramebuffers` stores in `read_buffer_`. -/
  read_buffer_ : Nat
  /-- Whether `OIIO::ImageOutput::create(fn)` returns a writer (non-null). -/
  create : String → Bool
  /-- The value `out->open(fn, spec)` returns. -/
  open_ok : String → Bool
  /-- The value `out->write_image(..)` returns. -/
  write_ok : String → Bool

/-! ## The worker as a machine -/

/-- Program points of `ProcessLoop`. -/
inductive PC where
  /-- Lines 41-59, before anything ran. -/
  | entry
  /-- Line 61: `while (!cancelled_)`. -/
  | loopHead
  /-- Line 63: `texture_queue_lock_.lock()`. -/
  | lockQueue
  /-- Line 65: `while (texture_queue_.isEmpty())`, lock held. -/
  | checkEmpty
  /-- Line 67: inside `wait_cond_.wait`, lock released; `signalled` tells
  whether a `wakeAll` has arrived since the wait began. -/
  | waiting (signalled : Bool)
  /-- Line 69: `if (cancelled_) break;` after the wait returned, lock held. -/
  | woken
  /-- Line 73: `if (cancelled_)` after the inner loop, lock held. -/
  | checkCancel
  /-- Lines 78-80: `entry = takeFirst(); unlock()`, lock held. -/
  | take
  /-- Lines 84-120 with the local `entry` holding `e`. -/
  | download (e : DownloadQueueEntry)
  /-- Line 123, reached by either `break` or by the loop condition. -/
  | teardown
  /-- `ProcessLoop` has returned. -/
  | finished
deriving DecidableEq, Repr

/-- Whether the worker holds `texture_queue_lock_` at a program point. -/
def PC.holdsLock : PC → Bool
  | .checkEmpty => true
  | .woken => true
  | .checkCancel => true
  | .take => true
  | _ => false

/-- State of the thread object and of the running `ProcessLoop`. -/
structure State where
  texture_queue_ : List DownloadQueueEntry
  cancelled_ : Bool
  pc : PC
  /-- Size of `data_buffer` (lines 48-53). -/
  buffer_size : Int
  /-- The calls the worker has made so far, oldest first; a record only, which
  no step reads. -/
  trace : List Event
deriving DecidableEq, Repr

/-- The constructor (lines 10-15): empty queue, `cancelled_(false)`, thread not
yet run. -/
def init : State :=
  { texture_queue_ := [], cancelled_ := false, pc := .entry, buffer_size := 0, trace := [] }

/-- Lines 84-106: the five OpenGL calls made for an entry. -/
def gpuCalls (env : Env) (e : DownloadQueueEntry) : List Event :=
  [ .glBindFramebuffer env.read_buffer_,
    .glFramebufferTexture2D e.texture.texture,
    .glReadPixels e.texture.width e.texture.height,
    .glFramebufferTexture2D 0,
    .glBindFramebuffer 0 ]

/-- Lines 108-120: create the writer; with a writer, open, write, close and
emit `Downloaded`; without one, log the warning. The values returned by `open`
and `write_image` are not inspected. -/
def writeCalls (env : Env) (e : DownloadQueueEntry) : List Event :=
  if env.create e.filename then
    [ .out_open e.filename (env.open_ok e.filename),
      .out_write_image e.filename (env.write_ok e.filename),
      .out_close e.filename,
      .Downloaded e.hash ]
  else
    [ .qWarning e.filename ]

/-- Lines 84-120 for the entry held in `entry`. -/
def downloadCalls (env : Env) (e : DownloadQueueEntry) : List Event :=
  gpuCalls env e ++ writeCalls env e

/-- Everything one loop iteration records for the entry it dequeues. -/
def entryTrace (env : Env) (e : DownloadQueueEntry) : List Event :=
  .takeFirst e :: downloadCalls env e

/-- What can happen next: a call by the producer, either half of `Cancel`, or
one step of the worker. -/
inductive Action where
  /-- A call of `Queue(texture, fn, hash)`; lines 19-25 are one critical
  section. -/
  | Queue (e : DownloadQueueEntry)
  /-- First part of `Cancel`, line 30. -/
  | setCancelled
  /-- Second part of `Cancel`, lines 32-34, one critical section. -/
  | cancelWake
  /-- One step of `ProcessLoop`. -/
  | worker
deriving DecidableEq, Repr

/-- Effect of `wait_cond_.wakeAll()` on the worker's program point. -/
def wakeAll : PC → PC
  | .waiting _ => .waiting true
  | p => p

/-- `ProcessLoop` (lines 39-124), one step at a time: what the worker does at
its current program point. `none` when the worker is blocked in the wait or has
returned (and for `takeFirst` on an empty queue, which no run reaches). -/
def ProcessLoop (env : Env) (s : State) : Option State :=
  match s.pc with
  | .entry =>
    some { s with
      pc := .loopHead,
      buffer_size :=
        GetBufferSize env.table env.params.format env.params.width env.params.height,
      trace := s.trace ++ [.glGenFramebuffers] }
  | .loopHead => some { s with pc := if s.cancelled_ then .teardown else .lockQueue }
  | .lockQueue => some { s with pc := .checkEmpty }
  | .checkEmpty =>
    some { s with pc := if s.texture_queue_.isEmpty then .waiting false else .checkCancel }
  | .waiting true => some { s with pc := .woken }
  | .waiting false => none
  | .woken => some { s with pc := if s.cancelled_ then .checkCancel else .checkEmpty }
  | .checkCancel => some { s with pc := if s.cancelled_ then .teardown else .take }
  | .take =>
    match s.texture_queue_ with
    | e :: rest => some { s with texture_queue_ := rest, pc := .download e,
                                 trace := s.trace ++ [.takeFirst e] }
    | [] => none
  | .download e => some { s with pc := .loopHead, trace := s.trace ++ downloadCalls env e }
  | .teardown => some { s with pc := .finished, trace := s.trace ++ [.glDeleteFramebuffers] }
  | .finished => none

/-- `Queue` (lines 17-26): under the lock, append `{texture, fn, hash}` and
wake the worker. `none` while the worker holds the lock. -/
def Queue (e : DownloadQueueEntry) (s : State) : Option State :=
  if s.pc.holdsLock then none
  else some { s with texture_queue_ := s.texture_queue_ ++ [e], pc := wakeAll s.pc }

/-- `Cancel`, line 30: `cancelled_ = true`, written without taking the lock. -/
def Cancel_setFlag (s : State) : State :=
  { s with cancelled_ := true }

/-- `Cancel`, lines 32-34: under the lock, wake the worker. `none` while the
worker holds the lock. The `wait()` of line 36 only blocks the caller until the
worker has returned and changes nothing. -/
def Cancel_wake (s : State) : Option State :=
  if s.pc.holdsLock then none else some { s with pc := wakeAll s.pc }

/-- One scheduled action; `none` when the action cannot happen in `s` (the lock
is taken, or the worker is blocked). -/
def step (env : Env) (s : State) : Action → Option State
  | .Queue e => Queue e s
  | .setCancelled => some (Cancel_setFlag s)
  | .cancelWake => Cancel_wake s
  | .worker => ProcessLoop env s

/-- Run a schedule from a state. -/
def run (env : Env) : List Action → State → Option State
  | [], s => some s
  | a :: rest, s => (step env s a).bind (run env rest)

/-- Let the worker alone run for at most `fuel` steps; it stops early where it
blocks or has returned. -/
def workerRun (env : Env) : Nat → State → State
  | 0, s => s
  | fuel + 1, s =>
    match ProcessLoop env s with
    | some s' => workerRun env fuel s'
    | none => s

/-! ## Observations on schedules and traces -/

/-- The entries the producer submitted in a schedule, in call order. -/
def submitted : List Action → List DownloadQueueEntry
  | [] => []
  | .Queue e :: rest => e :: submitted rest
  | _ :: rest => submitted rest

/-- The entries the worker dequeued, in order, read off the trace. -/
def dequeued : List Event → List DownloadQueueEntry
  | [] => []
  | .takeFirst e :: rest => e :: dequeued rest
  | _ :: rest => dequeued rest

/-- The hashes of the `Downloaded` notifications of a trace, in order. -/
def downloadedHashes : List Event → List (List Nat)
  | [] => []
  | .Downloaded h :: rest => h :: downloadedHashes rest
  | _ :: rest => downloadedHashes rest

/-- Whether a schedule contains no part of a `Cancel` call. -/
def noCancel : List Action → Bool
  | [] => true
  | .setCancelled :: _ => false
  | .cancelWake :: _ => false
  | _ :: rest => noCancel rest

/-! ## Specification vocabulary -/

/-- The trace of a worker that generated the framebuffer and then fully handled
the entries `done`, one loop iteration each. -/
def loopTrace (env : Env) (done : List DownloadQueueEntry) : List Event :=
  .glGenFramebuffers :: done.flatMap (entryTrace env)

/-- The result of the buffer sizing call of lines 48-50. -/
def bufferSizeCall (env : Env) : Int :=
  GetBufferSize env.table env.params.format env.params.width env.params.height

/-- Invariant of every state reached from `init` by a schedule whose `Queue`
calls submitted `sub`: the trace is the framebuffer generation followed by the
complete iterations for the entries `done`, then whatever the current program
point has added; `done`, the entry in flight and the queue make up `sub`. -/
def Inv (env : Env) (sub : List DownloadQueueEntry) (s : State) : Prop :=
  ∃ done : List DownloadQueueEntry,
    match s.pc with
    | .entry => done = [] ∧ s.texture_queue_ = sub ∧ s.trace = []
    | .download e => done ++ e :: s.texture_queue_ = sub
        ∧ s.trace = loopTrace env done ++ [.takeFirst e]
        ∧ s.buffer_size = bufferSizeCall env
    | .finished => done ++ s.texture_queue_ = sub
        ∧ s.trace = loopTrace env done ++ [.glDeleteFramebuffers]
        ∧ s.buffer_size = bufferSizeCall env
        ∧ s.cancelled_ = true
    | pc => done ++ s.texture_queue_ = sub ∧ s.trace = loopTrace env done
        ∧ s.buffer_size = bufferSizeCall env
        ∧ (pc = .waiting false → s.texture_queue_ = [])
        ∧ (pc = .take → s.texture_queue_ ≠ [])
        ∧ (pc = .checkCancel → s.texture_queue_ ≠ [] ∨ s.cancelled_ = true)
        ∧ (pc = .teardown → s.cancelled_ = true)

/-- One loop iteration for an entry whose writer can be created. -/
def writtenTrace (env : Env) (e : DownloadQueueEntry) : List Event :=
  .takeFirst e :: gpuCalls env e ++
    [ .out_open e.filename (env.open_ok e.filename),
      .out_write_image e.filename (env.write_ok e.filename),
      .out_close e.filename,
      .Downloaded e.hash ]

/-- The two calls that manage the readback framebuffer itself. -/
def isLifecycle : Event → Bool
  | .glGenFramebuffers => true
  | .glDeleteFramebuffers => true
  | _ => false

/-- Program points from which a worker that sees the flag set reaches the end
of `ProcessLoop` without handling an entry: every point except the two that lie
after the last test of `cancelled_` in an iteration. -/
def PC.beforeTake : PC → Bool
  | .take => false
  | .download _ => false
  | _ => true

/-- States of a worker that has seen, or is about to see, the flag set:
`t0` is the trace at the moment of the observation. -/
def Exiting (t0 : List Event) (s : State) : Prop :=
  s.cancelled_ = true ∧
    (((s.pc = .loopHead ∨ s.pc = .woken ∨ s.pc = .checkCancel ∨ s.pc = .teardown)
        ∧ s.trace = t0)
      ∨ (s.pc = .finished ∧ s.trace = t0 ++ [.glDeleteFramebuffers]))

/-! ## The OpenGL state the worker changes -/

/-- The part of the OpenGL state the worker changes: the framebuffer bound to
`GL_READ_FRAMEBUFFER` and the texture attached to `GL_COLOR_ATTACHMENT0` of
`read_buffer_`; `0` is "none" for both. -/
structure GLState where
  read_framebuffer : Nat
  color_attachment : Nat
deriving DecidableEq, Repr

/-- State of the worker's context before `ProcessLoop` made any call. -/
def glInit : GLState := { read_framebuffer := 0, color_attachment := 0 }

/-- Effect of one recorded call on the OpenGL state. -/
def glApply (env : Env) (g : GLState) : Event → GLState
  | .glBindFramebuffer fb => { g with read_framebuffer := fb }
  | .glFramebufferTexture2D tex =>
    if g.read_framebuffer = env.read_buffer_ then { g with color_attachment := tex } else g
  | .glDeleteFramebuffers =>
    { read_framebuffer := if g.read_framebuffer = env.read_buffer_ then 0 else g.read_framebuffer,
      color_attachment := 0 }
  | _ => g

/-- The OpenGL state after a sequence of calls. -/
def glState (env : Env) (g : GLState) (t : List Event) : GLState :=
  t.foldl (glApply env) g

/-- The OpenGL calls among the recorded calls. -/
def isGlCall : Event → Bool
  | .glGenFramebuffers => true
  | .glBindFramebuffer _ => true
  | .glFramebufferTexture2D _ => true
  | .glReadPixels _ _ => true
  | .glDeleteFramebuffers => true
  | _ => false

/-! ## Sample data -/

/-- A renderer of 2 by 2 pixels at 4 bytes per pixel whose framebuffer gets the
name 7; a writer exists for every filename but `frame.unknown`, and every
`open` and `write_image` succeeds. -/
def sampleEnv : Env where
  params := { width := 2, height := 2, format := 0 }
  table := fun _ => 4
  read_buffer_ := 7
  create := fun fn => fn != "frame.unknown"
  open_ok := fun _ => true
  write_ok := fun _ => true

/-- The same renderer with writers whose `open` and `write_image` fail. -/
def failingWriteEnv : Env where
  params := { width := 2, height := 2, format := 0 }
  table := fun _ => 4
  read_buffer_ := 7
  create := fun _ => true
  open_ok := fun _ => false
  write_ok := fun _ => false

/-- A 2 by 2 texture to be written to `a.exr`. -/
def entryA : DownloadQueueEntry :=
  { texture := { texture := 11, width := 2, height := 2 }, filename := "a.exr", hash := [1] }

/-- A 2 by 2 texture to be written to `b.exr`. -/
def entryB : DownloadQueueEntry :=
  { texture := { texture := 12, width := 2, height := 2 }, filename := "b.exr", hash := [2] }

/-- A 2 by 2 texture to be written to `c.exr`. -/
def entryC : DownloadQueueEntry :=
  { texture := { texture := 13, width := 2, height := 2 }, filename := "c.exr", hash := [3] }

/-- A 2 by 2 texture whose filename has no writer. -/
def entryBad : DownloadQueueEntry :=
  { texture := { texture := 14, width := 2, height := 2 }, filename := "frame.unknown",
    hash := [4] }

/-- A 3 by 3 texture, larger than the renderer's 2 by 2. -/
def entryBig : DownloadQueueEntry :=
  { texture := { texture := 15, width := 3, height := 3 }, filename := "big.exr", hash := [5] }

/-- The state a schedule leads to from `init` (`init` itself where the schedule
cannot be run). -/
def stateAfter (env : Env) (acts : List Action) : State :=
  (run env acts init).getD init

/-- The worker alone takes `n` steps. -/
def workerSteps (n : Nat) : List Action :=
  List.replicate n .worker

/-- Two submissions, six worker steps, a third submission. -/
def fifoSchedule : List Action :=
  [.Queue entryA, .Queue entryB] ++ workerSteps 6 ++ [.Queue entryC]

/-- Three submissions around the first two worker steps. -/
def threeEntries : List Action :=
  [.Queue entryA] ++ workerSteps 2 ++ [.Queue entryB, .Queue entryC]

/-- One submission and the seven worker steps of a complete first iteration. -/
def oneIteration : List Action :=
  [.Queue entryA] ++ workerSteps 7

/-- The oversized texture submitted and handled. -/
def bigIteration : List Action :=
  [.Queue entryBig] ++ workerSteps 7

/-- Both `a.exr` and the oversized texture submitted; `a.exr` handled. -/
def mixedIteration : List Action :=
  [.Queue entryA, .Queue entryBig] ++ workerSteps 7

/-- One entry handled, then `Cancel` sets the flag and the worker returns. -/
def cancelledRun : List Action :=
  [.Queue entryA] ++ workerSteps 7 ++ [.setCancelled] ++ workerSteps 2

/-! ## The invariant of reachable states -/

theorem loopTrace_snoc (env : Env) (done : List DownloadQueueEntry) (e : DownloadQueueEntry) :
    loopTrace env (done ++ [e]) = loopTrace env done ++ .takeFirst e :: downloadCalls env e := by
  simp [loopTrace, entryTrace]

theorem inv_init (env : Env) : Inv env [] init := ⟨[], by simp [init]⟩

theorem inv_step (env : Env) (sub : List DownloadQueueEntry) (s s' : State) (a : Action)
    (h : Inv env sub s) (hs : step env s a = some s') : Inv env (sub ++ submitted [a]) s' := by
  obtain ⟨done, h⟩ := h
  obtain ⟨q, c, pc, b, t⟩ := s
  cases a with
  | Queue e =>
    cases pc <;> simp [step, Queue, Cancel_wake, PC.holdsLock, wakeAll, submitted] at hs h ⊢
      <;> subst hs
      <;> refine ⟨done, ?_⟩ <;> simp_all <;> (rw [← h.1]; simp)
  | setCancelled =>
    cases pc <;> simp [step, Cancel_setFlag, submitted] at hs h ⊢ <;> subst hs
      <;> refine ⟨done, ?_⟩ <;> simp_all
  | cancelWake =>
    cases pc <;> simp [step, Queue, Cancel_wake, PC.holdsLock, wakeAll, submitted] at hs h ⊢
      <;> subst hs
      <;> refine ⟨done, ?_⟩ <;> simp_all
  | worker =>
    cases pc with
    | download e =>
      simp [step, ProcessLoop, submitted] at hs h ⊢
      subst hs
      refine ⟨done ++ [e], ?_⟩
      simp [loopTrace_snoc, h]
    | take =>
      cases q with
      | nil => simp [step, ProcessLoop] at hs
      | cons e rest =>
        simp [step, ProcessLoop, submitted] at hs h ⊢
        subst hs
        exact ⟨done, by simp [h]⟩
    | entry =>
      simp [step, ProcessLoop, submitted] at hs h ⊢
      subst hs
      exact ⟨[], by simp [h, loopTrace, bufferSizeCall]⟩
    | waiting b =>
      cases b <;> simp [step, ProcessLoop, submitted] at hs h ⊢
      subst hs
      exact ⟨done, by simp [h]⟩
    | loopHead =>
      simp [step, ProcessLoop, submitted] at hs h ⊢
      subst hs
      refine ⟨done, ?_⟩
      cases c <;> simp [h]
    | lockQueue =>
      simp [step, ProcessLoop, submitted] at hs h ⊢
      subst hs
      exact ⟨done, by simp [h]⟩
    | checkEmpty =>
      simp [step, ProcessLoop, submitted] at hs h ⊢
      subst hs
      refine ⟨done, ?_⟩
      cases q <;> simp [h]
    | woken =>
      simp [step, ProcessLoop, submitted] at hs h ⊢
      subst hs
      refine ⟨done, ?_⟩
      cases c <;> simp [h]
    | checkCancel =>
      simp [step, ProcessLoop, submitted] at hs h ⊢
      subst hs
      refine ⟨done, ?_⟩
      cases c <;> simp_all
    | teardown =>
      simp [step, ProcessLoop, submitted] at hs h ⊢
      subst hs
      exact ⟨done, by simp [h]⟩
    | finished => simp [step, ProcessLoop] at hs

theorem submitted_cons (a : Action) (rest : List Action) :
    submitted (a :: rest) = submitted [a] ++ submitted rest := by
  cases a <;> simp [submitted]

theorem inv_run (env : Env) (acts : List Action) :
    ∀ (sub : List DownloadQueueEntry) (s s' : State),
      Inv env sub s → run env acts s = some s' → Inv env (sub ++ submitted acts) s' := by
  induction acts with
  | nil =>
    intro sub s s' h hr
    simp [run] at hr
    subst hr
    simpa [submitted] using h
  | cons a rest ih =>
    intro sub s s' h hr
    simp only [run] at hr
    cases hst : step env s a with
    | none => simp [hst] at hr
    | some m =>
      rw [hst] at hr
      have := ih _ m s' (inv_step env sub s m a h hst) hr
      rw [submitted_cons, ← List.append_assoc]
      exact this

theorem inv_reachable (env : Env) (acts : List Action) (s : State)
    (hr : run env acts init = some s) : Inv env (submitted acts) s := by
  simpa using inv_run env acts [] init s (inv_init env) hr

/-! ## Running the worker alone -/

theorem workerRun_stuck (env : Env) (s : State) (h : ProcessLoop env s = none) (n : Nat) :
    workerRun env n s = s := by
  cases n <;> simp [workerRun, h]

theorem workerRun_add (env : Env) (a b : Nat) :
    ∀ s : State, workerRun env (a + b) s = workerRun env b (workerRun env a s) := by
  induction a with
  | zero => intro s; simp [workerRun]
  | succ n ih =>
    intro s
    rw [Nat.succ_add]
    cases h : ProcessLoop env s with
    | none => simp [workerRun, h, workerRun_stuck]
    | some m => simp [workerRun, h, ih]

theorem workerRun_le (env : Env) (n m : Nat) (s : State) (hnm : n ≤ m)
    (h : ProcessLoop env (workerRun env n s) = none) :
    workerRun env m s = workerRun env n s := by
  obtain ⟨d, rfl⟩ := Nat.exists_eq_add_of_le hnm
  rw [workerRun_add, workerRun_stuck env _ h]

/-- From the loop head with the flag clear the worker handles the whole queue
and blocks in the wait. -/
theorem drain_loopHead (env : Env) (b : Int) :
    ∀ (q : List DownloadQueueEntry) (t : List Event),
      workerRun env (6 * q.length + 3) ⟨q, false, .loopHead, b, t⟩
        = ⟨[], false, .waiting false, b, t ++ q.flatMap (entryTrace env)⟩ := by
  intro q
  induction q with
  | nil => intro t; simp [workerRun, ProcessLoop]
  | cons e rest ih =>
    intro t
    have hf : 6 * (e :: rest).length + 3 = 6 + (6 * rest.length + 3) := by
      simp [List.length_cons]; omega
    rw [hf, workerRun_add]
    have h6 : workerRun env 6 ⟨e :: rest, false, .loopHead, b, t⟩
        = ⟨rest, false, .loopHead, b, (t ++ [.takeFirst e]) ++ downloadCalls env e⟩ := by
      simp [workerRun, ProcessLoop]
    rw [h6, ih]
    simp [entryTrace]

theorem idle_from (env : Env) (s : State) (a N : Nat) (b : Int) (t : List Event)
    (h : workerRun env a s = ⟨[], false, .waiting false, b, t⟩) (hN : a ≤ N) :
    workerRun env N s = ⟨[], false, .waiting false, b, t⟩ := by
  rw [workerRun_le env a N s hN (by rw [h]; simp [ProcessLoop]), h]

theorem drain_from (env : Env) (s : State) (a N : Nat) (q : List DownloadQueueEntry) (b : Int)
    (t : List Event) (h : workerRun env a s = ⟨q, false, .loopHead, b, t⟩)
    (hN : a + (6 * q.length + 3) ≤ N) :
    workerRun env N s = ⟨[], false, .waiting false, b, t ++ q.flatMap (entryTrace env)⟩ := by
  apply idle_from env s (a + (6 * q.length + 3)) N _ _ _ hN
  rw [workerRun_add, h, drain_loopHead]

/-- Without cancellation the worker, left to run, handles every queued entry
and then blocks in the wait; its trace is then one complete iteration per
submitted entry, in submission order. -/
theorem drain (env : Env) (sub : List DownloadQueueEntry) (s : State) (hinv : Inv env sub s)
    (hc : s.cancelled_ = false) (k : Nat) :
    workerRun env (6 * s.texture_queue_.length + 6 + k) s
      = ⟨[], false, .waiting false, bufferSizeCall env, loopTrace env sub⟩ := by
  obtain ⟨done, h⟩ := hinv
  obtain ⟨q, c, pc, b, t⟩ := s
  simp only at hc
  subst hc
  cases pc with
  | entry =>
    simp at h
    obtain ⟨-, rfl, rfl⟩ := h
    have := drain_from env ⟨q, false, .entry, b, []⟩ 1 (6 * q.length + 6 + k) q
      (bufferSizeCall env) [.glGenFramebuffers] (by
        simp [workerRun, ProcessLoop, bufferSizeCall]) (by omega)
    simpa [loopTrace] using this
  | finished => simp at h
  | teardown => simp at h
  | loopHead =>
    simp at h
    obtain ⟨rfl, rfl, hb⟩ := h
    subst hb
    have := drain_from env
      ⟨q, false, .loopHead, bufferSizeCall env, loopTrace env done⟩ 0 (6 * q.length + 6 + k)
      q (bufferSizeCall env) _ (by simp [workerRun]; rfl) (by omega)
    simpa [loopTrace] using this
  | download e =>
    simp at h
    obtain ⟨rfl, rfl, hb⟩ := h
    subst hb
    have := drain_from env
      ⟨q, false, .download e, bufferSizeCall env, loopTrace env done ++ [.takeFirst e]⟩ 1
      (6 * q.length + 6 + k) q (bufferSizeCall env) _
      (by simp [workerRun, ProcessLoop]; rfl) (by omega)
    simpa [loopTrace, entryTrace] using this
  | waiting sg =>
    cases sg with
    | false =>
      simp at h
      obtain ⟨rfl, rfl, hb, rfl⟩ := h
      subst hb
      simpa using workerRun_stuck env
        ⟨[], false, .waiting false, bufferSizeCall env, loopTrace env done⟩
        (by simp [ProcessLoop]) _
    | true =>
      simp at h
      obtain ⟨rfl, rfl, hb⟩ := h
      subst hb
      cases q with
      | nil =>
        simpa using idle_from env
          ⟨[], false, .waiting true, bufferSizeCall env, loopTrace env done⟩ 3
          (6 * 0 + 6 + k) (bufferSizeCall env) _ (by simp [workerRun, ProcessLoop]) (by omega)
      | cons e r =>
        have := drain_from env
          ⟨e :: r, false, .waiting true, bufferSizeCall env, loopTrace env done⟩ 6
          (6 * (e :: r).length + 6 + k) r (bufferSizeCall env) _
          (by simp [workerRun, ProcessLoop]; rfl)
          (by simp [List.length_cons]; omega)
        simpa [loopTrace, entryTrace] using this
  | lockQueue =>
    simp at h
    obtain ⟨rfl, rfl, hb⟩ := h
    subst hb
    cases q with
    | nil =>
      simpa using idle_from env ⟨[], false, .lockQueue, bufferSizeCall env, loopTrace env done⟩ 2
        (6 * 0 + 6 + k) (bufferSizeCall env) _ (by simp [workerRun, ProcessLoop]) (by omega)
    | cons e r =>
      have := drain_from env ⟨e :: r, false, .lockQueue, bufferSizeCall env, loopTrace env done⟩ 5
        (6 * (e :: r).length + 6 + k) r (bufferSizeCall env) _
        (by simp [workerRun, ProcessLoop]; rfl)
        (by simp [List.length_cons]; omega)
      simpa [loopTrace, entryTrace] using this
  | checkEmpty =>
    simp at h
    obtain ⟨rfl, rfl, hb⟩ := h
    subst hb
    cases q with
    | nil =>
      simpa using idle_from env ⟨[], false, .checkEmpty, bufferSizeCall env, loopTrace env done⟩ 1
        (6 * 0 + 6 + k) (bufferSizeCall env) _ (by simp [workerRun, ProcessLoop]) (by omega)
    | cons e r =>
      have := drain_from env ⟨e :: r, false, .checkEmpty, bufferSizeCall env, loopTrace env done⟩ 4
        (6 * (e :: r).length + 6 + k) r (bufferSizeCall env) _
        (by simp [workerRun, ProcessLoop]; rfl)
        (by simp [List.length_cons]; omega)
      simpa [loopTrace, entryTrace] using this
  | woken =>
    simp at h
    obtain ⟨rfl, rfl, hb⟩ := h
    subst hb
    cases q with
    | nil =>
      simpa using idle_from env ⟨[], false, .woken, bufferSizeCall env, loopTrace env done⟩ 2
        (6 * 0 + 6 + k) (bufferSizeCall env) _ (by simp [workerRun, ProcessLoop]) (by omega)
    | cons e r =>
      have := drain_from env ⟨e :: r, false, .woken, bufferSizeCall env, loopTrace env done⟩ 5
        (6 * (e :: r).length + 6 + k) r (bufferSizeCall env) _
        (by simp [workerRun, ProcessLoop]; rfl)
        (by simp [List.length_cons]; omega)
      simpa [loopTrace, entryTrace] using this
  | checkCancel =>
    simp at h
    obtain ⟨rfl, rfl, hb, hq⟩ := h
    subst hb
    cases q with
    | nil => simp at hq
    | cons e r =>
      have := drain_from env ⟨e :: r, false, .checkCancel, bufferSizeCall env, loopTrace env done⟩ 3
        (6 * (e :: r).length + 6 + k) r (bufferSizeCall env) _
        (by simp [workerRun, ProcessLoop]; rfl)
        (by simp [List.length_cons]; omega)
      simpa [loopTrace, entryTrace] using this
  | take =>
    simp at h
    obtain ⟨rfl, rfl, hb, hq⟩ := h
    subst hb
    cases q with
    | nil => simp at hq
    | cons e r =>
      have := drain_from env ⟨e :: r, false, .take, bufferSizeCall env, loopTrace env done⟩ 2
        (6 * (e :: r).length + 6 + k) r (bufferSizeCall env) _
        (by simp [workerRun, ProcessLoop]; rfl)
        (by simp [List.length_cons]; omega)
      simpa [loopTrace, entryTrace] using this

/-! ## Queue order -/

theorem dequeued_append (xs ys : List Event) :
    dequeued (xs ++ ys) = dequeued xs ++ dequeued ys := by
  induction xs with
  | nil => simp [dequeued]
  | cons x rest ih => cases x <;> simp [dequeued, ih]

theorem dequeued_writeCalls (env : Env) (e : DownloadQueueEntry) :
    dequeued (writeCalls env e) = [] := by
  unfold writeCalls
  split <;> simp [dequeued]

theorem dequeued_downloadCalls (env : Env) (e : DownloadQueueEntry) :
    dequeued (downloadCalls env e) = [] := by
  simp [downloadCalls, gpuCalls, dequeued_append, dequeued, dequeued_writeCalls]

theorem dequeued_entryTrace (env : Env) (e : DownloadQueueEntry) :
    dequeued (entryTrace env e) = [e] := by
  rw [entryTrace, dequeued, dequeued_downloadCalls]

theorem dequeued_flatMap (env : Env) (done : List DownloadQueueEntry) :
    dequeued (done.flatMap (entryTrace env)) = done := by
  induction done with
  | nil => simp [dequeued]
  | cons e rest ih => simp [List.flatMap_cons, dequeued_append, dequeued_entryTrace, ih]

theorem dequeued_loopTrace (env : Env) (done : List DownloadQueueEntry) :
    dequeued (loopTrace env done) = done := by
  simp [loopTrace, dequeued, dequeued_flatMap]

/-- What the invariant says about the dequeued entries. -/
theorem inv_dequeued (env : Env) (sub : List DownloadQueueEntry) (s : State)
    (h : Inv env sub s) : dequeued s.trace ++ s.texture_queue_ = sub := by
  obtain ⟨done, h⟩ := h
  obtain ⟨q, c, pc, b, t⟩ := s
  have hd := dequeued_loopTrace env done
  cases pc <;> simp at h <;> obtain ⟨h1, h2, h3⟩ := h <;> subst h1
    <;> simp_all [dequeued_append, dequeued]

/-- C1: the export queue is first-in first-out. `Queue` appends its entry at the
tail and touches nothing else in the queue; a worker step either leaves the
queue alone or removes its head, which is then the next dequeued entry; hence
after any schedule of `Queue` calls and worker steps (with or without
cancellation) the dequeued entries followed by the queue are exactly the
submitted entries in submission order, so the dequeued sequence is an initial
segment of the submission sequence. -/
theorem queue_fifo (env : Env) (acts : List Action) (s : State)
    (hrun : run env acts init = some s) (t : State) :
    (∀ e t', Queue e t = some t' →
        t'.texture_queue_ = t.texture_queue_ ++ [e] ∧ t'.trace = t.trace) ∧
    (∀ t', ProcessLoop env t = some t' →
        (t'.texture_queue_ = t.texture_queue_ ∧ dequeued t'.trace = dequeued t.trace) ∨
        (∃ e, t.texture_queue_ = e :: t'.texture_queue_ ∧
          dequeued t'.trace = dequeued t.trace ++ [e])) ∧
    dequeued s.trace ++ s.texture_queue_ = submitted acts ∧
    dequeued s.trace <+: submitted acts := by
  refine ⟨?_, ?_, ?_, ?_⟩
  · intro e t' h
    simp only [step, Queue] at h
    split at h
    · simp at h
    · simp at h; subst h; simp
  · intro t' h
    obtain ⟨q, c, pc, b, tr⟩ := t
    cases pc with
    | take =>
      cases q with
      | nil => simp [step, ProcessLoop] at h
      | cons e r =>
        simp [step, ProcessLoop] at h
        subst h
        exact Or.inr ⟨e, by simp [dequeued_append, dequeued]⟩
    | entry =>
      simp [step, ProcessLoop] at h
      subst h
      simp [dequeued_append, dequeued]
    | waiting sg =>
      cases sg <;> simp [step, ProcessLoop] at h
      subst h; simp
    | download e =>
      simp [step, ProcessLoop] at h
      subst h
      simp [dequeued_append, dequeued_downloadCalls]
    | _ =>
      simp [step, ProcessLoop] at h
      try (subst h; simp [dequeued_append, dequeued])
  · exact inv_dequeued env _ s (inv_reachable env acts s hrun)
  · exact ⟨s.texture_queue_, inv_dequeued env _ s (inv_reachable env acts s hrun)⟩

/-- Witness for C1: three submissions interleaved with six worker
steps; `a.exr` has been dequeued, the other two wait in order. -/
theorem queue_fifo_witness :
    run sampleEnv fifoSchedule init
      = some ⟨[entryB, entryC], false, .download entryA, 16,
          [.glGenFramebuffers, .takeFirst entryA]⟩ ∧
    dequeued [.glGenFramebuffers, .takeFirst entryA] ++ [entryB, entryC]
      = submitted fifoSchedule :=
  ⟨by decide,
    (queue_fifo sampleEnv fifoSchedule
      ⟨[entryB, entryC], false, .download entryA, 16, [.glGenFramebuffers, .takeFirst entryA]⟩
      (by decide) init).2.2.1⟩

/-! ## Notifications -/

theorem workerStep_cancelled (env : Env) (s s' : State) (h : ProcessLoop env s = some s') :
    s'.cancelled_ = s.cancelled_ := by
  obtain ⟨q, c, pc, b, t⟩ := s
  cases pc with
  | take => cases q <;> simp [ProcessLoop] at h; subst h; rfl
  | waiting sg => cases sg <;> simp [ProcessLoop] at h; subst h; rfl
  | finished => simp [ProcessLoop] at h
  | _ => simp [ProcessLoop] at h; subst h; rfl

theorem run_noCancel (env : Env) (acts : List Action) :
    ∀ (s s' : State), noCancel acts = true → run env acts s = some s' →
      s'.cancelled_ = s.cancelled_ := by
  induction acts with
  | nil => intro s s' _ hr; simp [run] at hr; subst hr; rfl
  | cons a rest ih =>
    intro s s' hn hr
    simp only [run] at hr
    cases hst : step env s a with
    | none => simp [hst] at hr
    | some m =>
      rw [hst] at hr
      cases a with
      | setCancelled => simp [noCancel] at hn
      | cancelWake => simp [noCancel] at hn
      | Queue e =>
        simp only [noCancel] at hn
        rw [ih m s' hn hr]
        simp only [step, Queue] at hst
        split at hst
        · simp at hst
        · simp at hst; subst hst; rfl
      | worker =>
        simp only [noCancel] at hn
        rw [ih m s' hn hr]
        exact workerStep_cancelled env s m hst

theorem downloadedHashes_append (xs ys : List Event) :
    downloadedHashes (xs ++ ys) = downloadedHashes xs ++ downloadedHashes ys := by
  induction xs with
  | nil => simp [downloadedHashes]
  | cons x rest ih => cases x <;> simp [downloadedHashes, ih]

theorem entryTrace_of_create (env : Env) (e : DownloadQueueEntry)
    (h : env.create e.filename = true) : entryTrace env e = writtenTrace env e := by
  simp [entryTrace, writtenTrace, downloadCalls, writeCalls, h]

theorem flatMap_entryTrace_of_create (env : Env) (es : List DownloadQueueEntry)
    (h : ∀ e ∈ es, env.create e.filename = true) :
    es.flatMap (entryTrace env) = es.flatMap (writtenTrace env) := by
  induction es with
  | nil => rfl
  | cons e rest ih =>
    simp only [List.flatMap_cons]
    rw [entryTrace_of_create env e (h e (by simp)), ih (fun x hx => h x (by simp [hx]))]

theorem downloadedHashes_writtenTrace (env : Env) (e : DownloadQueueEntry) :
    downloadedHashes (writtenTrace env e) = [e.hash] := by
  simp [writtenTrace, gpuCalls, downloadedHashes]

theorem downloadedHashes_flatMap_written (env : Env) (es : List DownloadQueueEntry) :
    downloadedHashes (es.flatMap (writtenTrace env)) = es.map (fun e => e.hash) := by
  induction es with
  | nil => simp [downloadedHashes]
  | cons e rest ih =>
    simp [List.flatMap_cons, downloadedHashes_append, downloadedHashes_writtenTrace, ih]

/-- C2: with no cancellation and a writer for every filename, the worker, left
to run after any schedule of `Queue` calls and worker steps, handles every
submitted entry and blocks in the wait; the calls it has then made are the
framebuffer generation followed, for each submitted entry in submission order,
by the dequeue, the five OpenGL calls, `open`, `write_image`, `close` and only
then `Downloaded` with that entry's hash. The `Downloaded` notifications are
therefore exactly the submitted hashes, one each, in submission order. -/
theorem downloaded_in_submission_order (env : Env) (acts : List Action) (s : State)
    (hrun : run env acts init = some s) (hnc : noCancel acts = true)
    (hcreate : ∀ e ∈ submitted acts, env.create e.filename = true) (k : Nat) :
    (workerRun env (6 * s.texture_queue_.length + 6 + k) s).pc = .waiting false ∧
    (workerRun env (6 * s.texture_queue_.length + 6 + k) s).texture_queue_ = [] ∧
    (workerRun env (6 * s.texture_queue_.length + 6 + k) s).trace
      = .glGenFramebuffers :: (submitted acts).flatMap (writtenTrace env) ∧
    downloadedHashes (workerRun env (6 * s.texture_queue_.length + 6 + k) s).trace
      = (submitted acts).map (fun e => e.hash) := by
  have hc : s.cancelled_ = false := by
    rw [run_noCancel env acts init s hnc hrun]; rfl
  rw [drain env (submitted acts) s (inv_reachable env acts s hrun) hc k]
  simp [loopTrace, flatMap_entryTrace_of_create env _ hcreate, downloadedHashes,
    downloadedHashes_flatMap_written]

/-- Witness for C2: three entries with hashes
`[1]`, `[2]`, `[3]` and distinct filenames. -/
theorem downloaded_in_submission_order_witness :
    run sampleEnv threeEntries init
      = some ⟨[entryA, entryB, entryC], false, .lockQueue, 16, [.glGenFramebuffers]⟩ ∧
    downloadedHashes
        (workerRun sampleEnv (6 * 3 + 6 + 0)
          ⟨[entryA, entryB, entryC], false, .lockQueue, 16, [.glGenFramebuffers]⟩).trace
      = [[1], [2], [3]] :=
  ⟨by decide,
    (downloaded_in_submission_order sampleEnv
      threeEntries
      ⟨[entryA, entryB, entryC], false, .lockQueue, 16, [.glGenFramebuffers]⟩
      (by decide) (by decide) (by decide) 0).2.2.2⟩

/-! ## A writer that cannot be created -/

theorem entryTrace_of_not_create (env : Env) (e : DownloadQueueEntry)
    (h : env.create e.filename = false) :
    entryTrace env e = .takeFirst e :: gpuCalls env e ++ [.qWarning e.filename] := by
  simp [entryTrace, downloadCalls, writeCalls, h]

theorem downloadedHashes_gpuCalls (env : Env) (e : DownloadQueueEntry) :
    downloadedHashes (gpuCalls env e) = [] := by
  simp [gpuCalls, downloadedHashes]

theorem loopTrace_append (env : Env) (xs ys : List DownloadQueueEntry) :
    loopTrace env (xs ++ ys) = loopTrace env xs ++ ys.flatMap (entryTrace env) := by
  simp [loopTrace]

/-- C3: an entry whose writer cannot be created costs exactly its own
iteration. That iteration records the dequeue, the five OpenGL calls and one
warning naming the entry's filename, and no `Downloaded`; the step that handles
the entry returns to the loop head with queue and flag untouched. Run to the
point where the worker blocks again, a schedule that submitted
`pre ++ e :: post` leaves the trace of a schedule that submitted `pre ++ post`
with that one iteration inserted between those of `pre` and those of `post`:
every later entry is dequeued and handled by the same calls as without `e`. -/
theorem failed_writer_is_skipped (env : Env) (e : DownloadQueueEntry)
    (hfail : env.create e.filename = false)
    (acts acts' : List Action) (s s' : State) (pre post : List DownloadQueueEntry)
    (hrun : run env acts init = some s) (hnc : noCancel acts = true)
    (hsub : submitted acts = pre ++ e :: post)
    (hrun' : run env acts' init = some s') (hnc' : noCancel acts' = true)
    (hsub' : submitted acts' = pre ++ post) (k : Nat) :
    entryTrace env e = .takeFirst e :: gpuCalls env e ++ [.qWarning e.filename] ∧
    downloadedHashes (entryTrace env e) = [] ∧
    (∀ t : State, t.pc = .download e →
      ProcessLoop env t
        = some { t with
            pc := .loopHead,
            trace := t.trace ++ (gpuCalls env e ++ [.qWarning e.filename]) }) ∧
    (workerRun env (6 * s.texture_queue_.length + 6 + k) s).pc = .waiting false ∧
    (workerRun env (6 * s.texture_queue_.length + 6 + k) s).texture_queue_ = [] ∧
    (workerRun env (6 * s.texture_queue_.length + 6 + k) s).trace
      = loopTrace env pre ++ entryTrace env e ++ post.flatMap (entryTrace env) ∧
    (workerRun env (6 * s'.texture_queue_.length + 6 + k) s').trace
      = loopTrace env pre ++ post.flatMap (entryTrace env) ∧
    downloadedHashes (workerRun env (6 * s.texture_queue_.length + 6 + k) s).trace
      = downloadedHashes (workerRun env (6 * s'.texture_queue_.length + 6 + k) s').trace := by
  have hc : s.cancelled_ = false := by
    rw [run_noCancel env acts init s hnc hrun]; rfl
  have hc' : s'.cancelled_ = false := by
    rw [run_noCancel env acts' init s' hnc' hrun']; rfl
  have he := entryTrace_of_not_create env e hfail
  have hd : downloadedHashes (entryTrace env e) = [] := by
    rw [he]
    simp [downloadedHashes, downloadedHashes_append, downloadedHashes_gpuCalls]
  rw [drain env (submitted acts) s (inv_reachable env acts s hrun) hc k,
    drain env (submitted acts') s' (inv_reachable env acts' s' hrun') hc' k, hsub, hsub']
  refine ⟨he, hd, ?_, rfl, rfl, ?_, ?_, ?_⟩
  · intro t ht
    obtain ⟨q, c, pc, b, tr⟩ := t
    simp only at ht
    subst ht
    simp [ProcessLoop, downloadCalls, writeCalls, hfail]
  · simp [loopTrace]
  · simp [loopTrace]
  · simp only [loopTrace_append, List.flatMap_cons, downloadedHashes_append, hd,
      List.nil_append]

/-- Witness for C3: `frame.unknown` queued between
`a.exr` and `c.exr`. -/
theorem failed_writer_is_skipped_witness :
    sampleEnv.create entryBad.filename = false ∧
    (workerRun sampleEnv (6 * 3 + 6 + 0)
        ⟨[entryA, entryBad, entryC], false, .entry, 0, []⟩).trace
      = loopTrace sampleEnv [entryA] ++ entryTrace sampleEnv entryBad
          ++ [entryC].flatMap (entryTrace sampleEnv) ∧
    (workerRun sampleEnv (6 * 2 + 6 + 0) ⟨[entryA, entryC], false, .entry, 0, []⟩).trace
      = loopTrace sampleEnv [entryA] ++ [entryC].flatMap (entryTrace sampleEnv) :=
  ⟨by decide,
    (failed_writer_is_skipped sampleEnv entryBad (by decide)
      [.Queue entryA, .Queue entryBad, .Queue entryC] [.Queue entryA, .Queue entryC]
      ⟨[entryA, entryBad, entryC], false, .entry, 0, []⟩
      ⟨[entryA, entryC], false, .entry, 0, []⟩
      [entryA] [entryC] (by decide) (by decide) (by decide) (by decide) (by decide) (by decide)
      0).2.2.2.2.2.1,
    (failed_writer_is_skipped sampleEnv entryBad (by decide)
      [.Queue entryA, .Queue entryBad, .Queue entryC] [.Queue entryA, .Queue entryC]
      ⟨[entryA, entryBad, entryC], false, .entry, 0, []⟩
      ⟨[entryA, entryC], false, .entry, 0, []⟩
      [entryA] [entryC] (by decide) (by decide) (by decide) (by decide) (by decide) (by decide)
      0).2.2.2.2.2.2.1⟩

/-! ## Notification after a failed write -/

/-- C4, evaluated on the code: a writer is created for `a.exr`, its `open` and
its `write_image` both report failure, and `ProcessLoop` still calls `close`
and emits `Downloaded [1]`, where the claim requires that no notification be
emitted for an entry whose file was not written. -/
theorem downloaded_despite_failed_write :
    failingWriteEnv.create entryA.filename = true ∧
    failingWriteEnv.open_ok entryA.filename = false ∧
    failingWriteEnv.write_ok entryA.filename = false ∧
    run failingWriteEnv oneIteration init
      = some ⟨[], false, .loopHead, 16,
          [ .glGenFramebuffers, .takeFirst entryA, .glBindFramebuffer 7,
            .glFramebufferTexture2D 11, .glReadPixels 2 2, .glFramebufferTexture2D 0,
            .glBindFramebuffer 0, .out_open "a.exr" false, .out_write_image "a.exr" false,
            .out_close "a.exr", .Downloaded [1] ]⟩ := by
  decide

/-! ## Cancellation -/

theorem cancelled_step (env : Env) (s s' : State) (a : Action)
    (hc : s.cancelled_ = true) (hp : s.pc.beforeTake = true) (hs : step env s a = some s') :
    s'.cancelled_ = true ∧ s'.pc.beforeTake = true ∧
    s'.texture_queue_ = s.texture_queue_ ++ submitted [a] ∧
    s'.buffer_size
      = (if s.pc = .entry ∧ a = .worker then bufferSizeCall env else s.buffer_size) ∧
    ∃ extra, s'.trace = s.trace ++ extra ∧ extra.all isLifecycle = true := by
  obtain ⟨q, c, pc, b, t⟩ := s
  simp only at hc
  subst hc
  cases a with
  | Queue e =>
    cases pc <;>
      simp [step, Queue, Cancel_wake, PC.holdsLock, wakeAll, submitted, PC.beforeTake]
        at hs hp ⊢
      <;> subst hs <;> simp [PC.beforeTake]
  | setCancelled =>
    simp [step, Cancel_setFlag, submitted] at hs ⊢
    subst hs
    simp [hp]
  | cancelWake =>
    cases pc <;>
      simp [step, Queue, Cancel_wake, PC.holdsLock, wakeAll, submitted, PC.beforeTake]
        at hs hp ⊢
      <;> subst hs <;> simp [PC.beforeTake]
  | worker =>
    cases pc with
    | take => simp [PC.beforeTake] at hp
    | download e => simp [PC.beforeTake] at hp
    | finished => simp [step, ProcessLoop] at hs
    | waiting sg =>
      cases sg <;> simp [step, ProcessLoop] at hs
      subst hs
      simp [PC.beforeTake, submitted]
    | entry =>
      simp [step, ProcessLoop] at hs
      subst hs
      simp [PC.beforeTake, submitted, bufferSizeCall, isLifecycle]
    | teardown =>
      simp [step, ProcessLoop] at hs
      subst hs
      simp [PC.beforeTake, submitted, isLifecycle]
    | checkEmpty =>
      simp [step, ProcessLoop] at hs
      subst hs
      cases q <;> simp [PC.beforeTake, submitted]
    | _ =>
      simp [step, ProcessLoop] at hs
      subst hs
      simp [PC.beforeTake, submitted]

theorem cancelled_run (env : Env) (acts : List Action) :
    ∀ (s s' : State), s.cancelled_ = true → s.pc.beforeTake = true →
      run env acts s = some s' →
      s'.cancelled_ = true ∧ s'.pc.beforeTake = true ∧
      s'.texture_queue_ = s.texture_queue_ ++ submitted acts ∧
      ∃ extra, s'.trace = s.trace ++ extra ∧ extra.all isLifecycle = true := by
  induction acts with
  | nil =>
    intro s s' hc hp hr
    simp [run] at hr
    subst hr
    exact ⟨hc, hp, by simp [submitted], [], by simp⟩
  | cons a rest ih =>
    intro s s' hc hp hr
    simp only [run] at hr
    cases hst : step env s a with
    | none => simp [hst] at hr
    | some m =>
      rw [hst] at hr
      obtain ⟨c1, p1, q1, -, x1, t1, l1⟩ := cancelled_step env s m a hc hp hst
      obtain ⟨c2, p2, q2, x2, t2, l2⟩ := ih m s' c1 p1 hr
      refine ⟨c2, p2, ?_, x1 ++ x2, ?_, ?_⟩
      · rw [q2, q1, submitted_cons a rest, List.append_assoc]
      · rw [t2, t1, List.append_assoc]
      · simp [List.all_append, l1, l2]

theorem dequeued_of_lifecycle (extra : List Event) (h : extra.all isLifecycle = true) :
    dequeued extra = [] := by
  induction extra with
  | nil => rfl
  | cons x r ih =>
    simp only [List.all_cons, Bool.and_eq_true] at h
    obtain ⟨hx, hr⟩ := h
    cases x <;> simp [isLifecycle] at hx <;> simp [dequeued, ih hr]

theorem exiting_step (env : Env) (t0 : List Event) (s s' : State) (a : Action)
    (h : Exiting t0 s) (hs : step env s a = some s') :
    Exiting t0 s' ∧ s'.texture_queue_ = s.texture_queue_ ++ submitted [a] := by
  obtain ⟨q, c, pc, b, t⟩ := s
  obtain ⟨hc, h⟩ := h
  simp only at hc
  subst hc
  cases a with
  | Queue e =>
    cases pc <;> simp [step, Queue, Cancel_wake, PC.holdsLock, wakeAll, submitted] at hs h ⊢
      <;> subst hs <;> simp [Exiting, h]
  | setCancelled =>
    simp [step, Cancel_setFlag, submitted] at hs ⊢
    subst hs
    simpa [Exiting] using h
  | cancelWake =>
    cases pc <;> simp [step, Queue, Cancel_wake, PC.holdsLock, wakeAll, submitted] at hs h ⊢
      <;> subst hs <;> simp [Exiting, h]
  | worker =>
    cases pc <;> simp [step, ProcessLoop, submitted] at hs h ⊢
      <;> subst hs <;> simp [Exiting, h]

theorem exiting_run (env : Env) (t0 : List Event) (acts : List Action) :
    ∀ (s s' : State), Exiting t0 s → run env acts s = some s' →
      Exiting t0 s' ∧ s'.texture_queue_ = s.texture_queue_ ++ submitted acts := by
  induction acts with
  | nil =>
    intro s s' h hr
    simp [run] at hr
    subst hr
    exact ⟨h, by simp [submitted]⟩
  | cons a rest ih =>
    intro s s' h hr
    simp only [run] at hr
    cases hst : step env s a with
    | none => simp [hst] at hr
    | some m =>
      rw [hst] at hr
      obtain ⟨e1, q1⟩ := exiting_step env t0 s m a h hst
      obtain ⟨e2, q2⟩ := ih m s' e1 hr
      exact ⟨e2, by rw [q2, q1, submitted_cons a rest, List.append_assoc]⟩

/-- C5 (amended): when the worker tests `cancelled_` and finds it set, at the
top of the loop (line 61), after waking from the wait (line 69) or after the
inner loop (line 73), it leaves the loop without dequeuing anything, whether or
not the queue is empty. Whatever the producer or canceller do meanwhile, the
queue only grows by the entries submitted later, nothing is dequeued, and the
worker's only further call is the deletion of the framebuffer; left to run, the
worker has returned within three steps with the queue as it was. -/
theorem cancellation_leaves_queue (env : Env) (s : State)
    (hc : s.cancelled_ = true)
    (hpc : s.pc = .loopHead ∨ s.pc = .woken ∨ s.pc = .checkCancel)
    (acts : List Action) (s' : State) (hrun : run env acts s = some s') (k : Nat) :
    s'.texture_queue_ = s.texture_queue_ ++ submitted acts ∧
    dequeued s'.trace = dequeued s.trace ∧
    (s'.trace = s.trace ∨ s'.trace = s.trace ++ [.glDeleteFramebuffers]) ∧
    workerRun env (3 + k) s
      = { s with pc := .finished, trace := s.trace ++ [.glDeleteFramebuffers] } := by
  have hex : Exiting s.trace s := ⟨hc, Or.inl ⟨by tauto, rfl⟩⟩
  obtain ⟨⟨-, hfin⟩, hq⟩ := exiting_run env s.trace acts s s' hex hrun
  refine ⟨hq, ?_, ?_, ?_⟩
  · rcases hfin with ⟨-, ht⟩ | ⟨-, ht⟩ <;> rw [ht]
    simp [dequeued_append, dequeued]
  · rcases hfin with ⟨-, ht⟩ | ⟨-, ht⟩
    · exact Or.inl ht
    · exact Or.inr ht
  · obtain ⟨q, c, pc, b, t⟩ := s
    simp only at hc hpc
    subst hc
    rcases hpc with rfl | rfl | rfl
    · have h2 : workerRun env 2 ⟨q, true, .loopHead, b, t⟩
          = ⟨q, true, .finished, b, t ++ [.glDeleteFramebuffers]⟩ := by
        simp [workerRun, ProcessLoop]
      rw [workerRun_le env 2 (3 + k) _ (by omega) (by rw [h2]; simp [ProcessLoop]), h2]
    · have h3 : workerRun env 3 ⟨q, true, .woken, b, t⟩
          = ⟨q, true, .finished, b, t ++ [.glDeleteFramebuffers]⟩ := by
        simp [workerRun, ProcessLoop]
      rw [workerRun_le env 3 (3 + k) _ (by omega) (by rw [h3]; simp [ProcessLoop]), h3]
    · have h2 : workerRun env 2 ⟨q, true, .checkCancel, b, t⟩
          = ⟨q, true, .finished, b, t ++ [.glDeleteFramebuffers]⟩ := by
        simp [workerRun, ProcessLoop]
      rw [workerRun_le env 2 (3 + k) _ (by omega) (by rw [h2]; simp [ProcessLoop]), h2]

/-- Witness for C5: the flag is seen at the loop head
with `a.exr` queued; `b.exr` is submitted while the worker leaves. -/
theorem cancellation_leaves_queue_witness :
    run sampleEnv [.Queue entryB, .worker, .worker]
        ⟨[entryA], true, .loopHead, 16, [.glGenFramebuffers]⟩
      = some ⟨[entryA, entryB], true, .finished, 16,
          [.glGenFramebuffers, .glDeleteFramebuffers]⟩ ∧
    workerRun sampleEnv (3 + 0) ⟨[entryA], true, .loopHead, 16, [.glGenFramebuffers]⟩
      = ⟨[entryA], true, .finished, 16, [.glGenFramebuffers] ++ [.glDeleteFramebuffers]⟩ :=
  ⟨by decide,
    (cancellation_leaves_queue sampleEnv ⟨[entryA], true, .loopHead, 16, [.glGenFramebuffers]⟩
      rfl (Or.inl rfl) [.Queue entryB, .worker, .worker]
      ⟨[entryA, entryB], true, .finished, 16, [.glGenFramebuffers, .glDeleteFramebuffers]⟩
      (by decide) 0).2.2.2⟩

/-- Counterexample to C5 as stated: the flag is set while `a.exr` is queued.
Seen at the top of the loop, or after waking from the wait, it makes
`ProcessLoop` return with `a.exr` still in the queue and never dequeued. -/
theorem cancel_drops_pending :
    run sampleEnv [.Queue entryA, .setCancelled, .worker] init
      = some ⟨[entryA], true, .loopHead, 16, [.glGenFramebuffers]⟩ ∧
    workerRun sampleEnv 2 ⟨[entryA], true, .loopHead, 16, [.glGenFramebuffers]⟩
      = ⟨[entryA], true, .finished, 16, [.glGenFramebuffers, .glDeleteFramebuffers]⟩ ∧
    run sampleEnv (workerSteps 4 ++ [.Queue entryA, .setCancelled, .cancelWake, .worker]) init
      = some ⟨[entryA], true, .woken, 16, [.glGenFramebuffers]⟩ ∧
    workerRun sampleEnv 3 ⟨[entryA], true, .woken, 16, [.glGenFramebuffers]⟩
      = ⟨[entryA], true, .finished, 16, [.glGenFramebuffers, .glDeleteFramebuffers]⟩ ∧
    entryA ∉ dequeued [.glGenFramebuffers, .glDeleteFramebuffers] := by
  decide

/-- C6: `Queue` called with the flag set keeps the flag set, appends its entry
at the tail of the queue and changes neither the trace nor the buffer. As long
as the worker is not already inside an iteration past the last test of the
flag, nothing that happens afterwards, under any schedule, dequeues an entry or
makes a per-entry call: the trace only ever grows by calls that generate or
delete the framebuffer, and the queue only by later submissions. In particular
`ProcessLoop` run from its loop head returns after deleting the framebuffer,
run from its first line it returns after generating and deleting it, and a
worker that has returned stays returned. -/
theorem queue_after_cancel (env : Env) (s s' : State) (e : DownloadQueueEntry)
    (hc : s.cancelled_ = true) (hpc : s.pc.beforeTake = true)
    (hq : Queue e s = some s')
    (acts : List Action) (s'' : State) (hrun : run env acts s' = some s'') (k : Nat) :
    s'.cancelled_ = true ∧ s'.texture_queue_ = s.texture_queue_ ++ [e] ∧
    s'.trace = s.trace ∧ s'.buffer_size = s.buffer_size ∧ s'.pc = wakeAll s.pc ∧
    (s''.cancelled_ = true ∧ s''.texture_queue_ = s.texture_queue_ ++ e :: submitted acts ∧
      dequeued s''.trace = dequeued s.trace ∧
      ∃ extra, s''.trace = s.trace ++ extra ∧ extra.all isLifecycle = true) ∧
    (s.pc = .loopHead → workerRun env (2 + k) s'
      = { s' with pc := .finished, trace := s.trace ++ [.glDeleteFramebuffers] }) ∧
    (s.pc = .entry → workerRun env (3 + k) s'
      = { s' with
          pc := .finished,
          buffer_size := bufferSizeCall env,
          trace := s.trace ++ [.glGenFramebuffers, .glDeleteFramebuffers] }) ∧
    (s.pc = .finished → workerRun env k s' = s') := by
  obtain ⟨c1, p1, q1, -, x1, t1, l1⟩ := cancelled_step env s s' (.Queue e) hc hpc hq
  have hs' : s' = { s with texture_queue_ := s.texture_queue_ ++ [e], pc := wakeAll s.pc } := by
    simp only [step, Queue] at hq
    split at hq
    · simp at hq
    · simpa using hq.symm
  obtain ⟨c2, -, q2, x2, t2, l2⟩ := cancelled_run env acts s' s'' c1 p1 hrun
  have ht : s'.trace = s.trace := by rw [hs']
  refine ⟨c1, by rw [hs'], ht, by rw [hs'], by rw [hs'], ⟨c2, ?_, ?_, x2, by rw [t2, ht], l2⟩,
    ?_, ?_, ?_⟩
  · rw [q2, hs']; simp
  · rw [t2, ht, dequeued_append, dequeued_of_lifecycle x2 l2, List.append_nil]
  · intro hp
    obtain ⟨q, c, pc, b, t⟩ := s
    simp only at hc hp
    subst hc hp hs'
    have h2 : workerRun env 2 ⟨q ++ [e], true, .loopHead, b, t⟩
        = ⟨q ++ [e], true, .finished, b, t ++ [.glDeleteFramebuffers]⟩ := by
      simp [workerRun, ProcessLoop]
    simp only [wakeAll]
    rw [workerRun_le env 2 (2 + k) _ (by omega) (by rw [h2]; simp [ProcessLoop]), h2]
  · intro hp
    obtain ⟨q, c, pc, b, t⟩ := s
    simp only at hc hp
    subst hc hp hs'
    have h3 : workerRun env 3 ⟨q ++ [e], true, .entry, b, t⟩
        = ⟨q ++ [e], true, .finished, bufferSizeCall env,
            t ++ [.glGenFramebuffers, .glDeleteFramebuffers]⟩ := by
      simp [workerRun, ProcessLoop, bufferSizeCall]
    simp only [wakeAll]
    rw [workerRun_le env 3 (3 + k) _ (by omega) (by rw [h3]; simp [ProcessLoop]), h3]
  · intro hp
    apply workerRun_stuck
    rw [hs']
    simp [hp, wakeAll, ProcessLoop]

/-- Witness for C6: `a.exr` is queued with the flag set and
the worker at its loop head; the worker then returns in two steps. -/
theorem queue_after_cancel_witness :
    Queue entryA ⟨[], true, .loopHead, 16, [.glGenFramebuffers]⟩
      = some ⟨[entryA], true, .loopHead, 16, [.glGenFramebuffers]⟩ ∧
    run sampleEnv [.worker, .worker] ⟨[entryA], true, .loopHead, 16, [.glGenFramebuffers]⟩
      = some ⟨[entryA], true, .finished, 16, [.glGenFramebuffers, .glDeleteFramebuffers]⟩ ∧
    dequeued [.glGenFramebuffers, .glDeleteFramebuffers] = dequeued [.glGenFramebuffers] :=
  ⟨by decide, by decide,
    (queue_after_cancel sampleEnv ⟨[], true, .loopHead, 16, [.glGenFramebuffers]⟩
      ⟨[entryA], true, .loopHead, 16, [.glGenFramebuffers]⟩ entryA rfl rfl (by decide)
      [.worker, .worker]
      ⟨[entryA], true, .finished, 16, [.glGenFramebuffers, .glDeleteFramebuffers]⟩
      (by decide) 0).2.2.2.2.2.1.2.2.1⟩

/-! ## Buffer size and readback -/

/-- The invariant, read as a description of the trace: nothing yet, or the
framebuffer generation and the complete iterations of `done`, followed by at
most one more call. -/
theorem inv_shape (env : Env) (sub : List DownloadQueueEntry) (s : State) (h : Inv env sub s) :
    (s.pc = .entry ∧ s.trace = []) ∨
    ∃ done rest : List DownloadQueueEntry, done ++ rest = sub ∧
      s.buffer_size = bufferSizeCall env ∧
      ((s.pc = .finished ∧ s.trace = loopTrace env done ++ [.glDeleteFramebuffers]) ∨
       (s.pc ≠ .finished ∧ s.pc ≠ .entry ∧
         (s.trace = loopTrace env done ∨ ∃ e, e ∈ rest ∧
            s.trace = loopTrace env done ++ [.takeFirst e]))) := by
  obtain ⟨done, h⟩ := h
  obtain ⟨q, c, pc, b, t⟩ := s
  cases pc with
  | entry => simp at h; exact Or.inl ⟨rfl, h.2.2⟩
  | finished =>
    simp at h
    exact Or.inr ⟨done, q, h.1, h.2.2.1, Or.inl ⟨rfl, h.2.1⟩⟩
  | download e =>
    simp at h
    exact Or.inr ⟨done, e :: q, h.1, h.2.2, Or.inr ⟨by simp, by simp,
      Or.inr ⟨e, by simp, h.2.1⟩⟩⟩
  | _ =>
    simp at h
    obtain ⟨h1, h2, h3⟩ := h
    have hb : b = bufferSizeCall env := by
      first
        | exact h3
        | exact h3.1
    exact Or.inr ⟨done, q, h1, hb, Or.inr ⟨by simp, by simp, Or.inl h2⟩⟩

/-- C7: `GetBufferSize(format, width, height)` is exactly
`width * height * BytesPerPixel(format)` for every format, width and height,
and once `ProcessLoop` has run its first lines the size of the host readback
buffer is that value for the renderer's format, width and height. -/
theorem buffer_size_exact (env : Env) (format : PixelFormat) (width height : Int)
    (acts : List Action) (s : State) (hrun : run env acts init = some s)
    (hpc : s.pc ≠ .entry) :
    GetBufferSize env.table format width height
      = width * height * BytesPerPixel env.table format ∧
    s.buffer_size
      = GetBufferSize env.table env.params.format env.params.width env.params.height ∧
    s.buffer_size
      = env.params.width * env.params.height * BytesPerPixel env.table env.params.format := by
  rcases inv_shape env _ s (inv_reachable env acts s hrun) with ⟨h, -⟩ | ⟨_, _, -, hb, -⟩
  · exact absurd h hpc
  · exact ⟨rfl, hb, hb⟩

/-- Witness for C7: a 3 by 5 buffer at 4 bytes per pixel, and
the worker's buffer for the 2 by 2 renderer. -/
theorem buffer_size_exact_witness :
    run sampleEnv [.worker] init = some ⟨[], false, .loopHead, 16, [.glGenFramebuffers]⟩ ∧
    GetBufferSize sampleEnv.table 0 3 5 = 3 * 5 * BytesPerPixel sampleEnv.table 0 ∧
    (16 : Int) = sampleEnv.params.width * sampleEnv.params.height
      * BytesPerPixel sampleEnv.table sampleEnv.params.format :=
  ⟨by decide,
    (buffer_size_exact sampleEnv 0 3 5 [.worker]
      ⟨[], false, .loopHead, 16, [.glGenFramebuffers]⟩ (by decide) (by decide)).1,
    (buffer_size_exact sampleEnv 0 3 5 [.worker]
      ⟨[], false, .loopHead, 16, [.glGenFramebuffers]⟩ (by decide) (by decide)).2.2⟩

theorem mem_flatMap_entryTrace_readPixels (env : Env) (done : List DownloadQueueEntry)
    (w h : Int) (hm : Event.glReadPixels w h ∈ done.flatMap (entryTrace env)) :
    ∃ e ∈ done, w = e.texture.width ∧ h = e.texture.height := by
  rw [List.mem_flatMap] at hm
  obtain ⟨e, he, hm⟩ := hm
  refine ⟨e, he, ?_⟩
  simp only [entryTrace, downloadCalls, gpuCalls, writeCalls] at hm
  split at hm <;> simpa using hm

/-- C8 (amended): every `glReadPixels` call in the trace reads the texture of an
entry the worker dequeued; for each such entry whose texture is no wider and no
taller than the renderer's parameters (dimensions and bytes per pixel not
negative), whatever else was queued, the number of bytes transferred, texture
width times texture height times bytes per pixel, is at most the size of the
host buffer allocated from the parameters' width and height. -/
theorem readback_within_buffer (env : Env) (acts : List Action) (s : State)
    (hrun : run env acts init = some s)
    (w h : Int) (hev : Event.glReadPixels w h ∈ s.trace)
    (hbpp : 0 ≤ BytesPerPixel env.table env.params.format)
    (hw0 : 0 ≤ w) (hw : w ≤ env.params.width)
    (hh0 : 0 ≤ h) (hh : h ≤ env.params.height) :
    w * h * BytesPerPixel env.table env.params.format ≤ s.buffer_size ∧
    s.buffer_size
      = env.params.width * env.params.height * BytesPerPixel env.table env.params.format ∧
    ∃ e : DownloadQueueEntry, e ∈ dequeued s.trace ∧ e ∈ submitted acts ∧
      w = e.texture.width ∧ h = e.texture.height := by
  rcases inv_shape env _ s (inv_reachable env acts s hrun) with
    ⟨-, ht⟩ | ⟨done, rest, hsub, hb, hsh⟩
  · rw [ht] at hev; simp at hev
  · have hmem : Event.glReadPixels w h ∈ done.flatMap (entryTrace env) := by
      rcases hsh with ⟨-, ht⟩ | ⟨-, -, ht | ⟨e, -, ht⟩⟩ <;> rw [ht] at hev <;>
        simpa [loopTrace] using hev
    have hdq : ∀ e ∈ done, e ∈ dequeued s.trace := by
      intro e he
      rcases hsh with ⟨-, ht⟩ | ⟨-, -, ht | ⟨x, -, ht⟩⟩ <;> rw [ht] <;>
        simp [dequeued_append, dequeued_loopTrace, he]
    obtain ⟨e, he, hwe, hhe⟩ := mem_flatMap_entryTrace_readPixels env done w h hmem
    refine ⟨?_, hb, e, hdq e he, by rw [← hsub]; simp [he], hwe, hhe⟩
    rw [hb]
    show _ ≤ env.params.width * env.params.height * BytesPerPixel env.table env.params.format
    exact mul_le_mul_of_nonneg_right (mul_le_mul hw hh hh0 (le_trans hw0 hw)) hbpp

/-- Witness for C8: the 2 by 2 texture of `a.exr` is read back into the 16 byte
buffer of the 2 by 2 renderer while the oversized `big.exr` waits in the
queue. -/
theorem readback_within_buffer_witness :
    run sampleEnv mixedIteration init = some (stateAfter sampleEnv mixedIteration) ∧
    (stateAfter sampleEnv mixedIteration).texture_queue_ = [entryBig] ∧
    Event.glReadPixels 2 2 ∈ (stateAfter sampleEnv mixedIteration).trace ∧
    2 * 2 * BytesPerPixel sampleEnv.table sampleEnv.params.format
      ≤ (stateAfter sampleEnv mixedIteration).buffer_size :=
  ⟨by decide, by decide, by decide,
    (readback_within_buffer sampleEnv mixedIteration (stateAfter sampleEnv mixedIteration)
      (by decide) 2 2 (by decide) (by decide) (by decide) (by decide) (by decide)
      (by decide)).1⟩

/-- Counterexample to C8 as stated: a 3 by 3 texture queued to the 2 by 2
renderer is read back with `glReadPixels(0, 0, 3, 3, ..)`, 36 bytes, into the
buffer of 16 bytes. -/
theorem readback_exceeds_buffer :
    run sampleEnv bigIteration init
      = some ⟨[], false, .loopHead, 16,
          [ .glGenFramebuffers, .takeFirst entryBig, .glBindFramebuffer 7,
            .glFramebufferTexture2D 15, .glReadPixels 3 3, .glFramebufferTexture2D 0,
            .glBindFramebuffer 0, .out_open "big.exr" true, .out_write_image "big.exr" true,
            .out_close "big.exr", .Downloaded [5] ]⟩ ∧
    GetBufferSize sampleEnv.table sampleEnv.params.format sampleEnv.params.width
      sampleEnv.params.height = 16 ∧
    entryBig.texture.width * entryBig.texture.height
      * BytesPerPixel sampleEnv.table sampleEnv.params.format = 36 ∧
    ¬ (entryBig.texture.width * entryBig.texture.height
      * BytesPerPixel sampleEnv.table sampleEnv.params.format ≤ 16) := by
  decide

/-! ## OpenGL bindings -/

theorem glState_append (env : Env) (g : GLState) (xs ys : List Event) :
    glState env g (xs ++ ys) = glState env (glState env g xs) ys := by
  simp [glState, List.foldl_append]

theorem glState_entryTrace (env : Env) (g : GLState) (e : DownloadQueueEntry) :
    glState env g (entryTrace env e) = glInit := by
  simp only [entryTrace, downloadCalls, gpuCalls, writeCalls]
  split <;> simp [glState, glApply, glInit]

theorem glState_flatMap (env : Env) (done : List DownloadQueueEntry) :
    glState env glInit (done.flatMap (entryTrace env)) = glInit := by
  induction done using List.reverseRecOn with
  | nil => rfl
  | append_singleton xs e _ =>
    rw [List.flatMap_append, glState_append]
    simp [glState_entryTrace]

theorem glState_loopTrace (env : Env) (done : List DownloadQueueEntry) :
    glState env glInit (loopTrace env done) = glInit := by
  have h := glState_flatMap env done
  simpa [loopTrace, glState, glApply, glInit] using h

theorem filter_isGlCall_writeCalls (env : Env) (e : DownloadQueueEntry) :
    (writeCalls env e).filter isGlCall = [] := by
  unfold writeCalls
  split <;> simp [isGlCall]

/-- C9: the OpenGL calls of a loop iteration are exactly: bind `read_buffer_`
as read framebuffer, attach the entry's texture, read the pixels, attach
texture 0, bind framebuffer 0, in that order, whether or not the image writer
is created afterwards. Whatever the OpenGL state before an iteration, after it
no framebuffer is bound for reading and no texture is attached; and so it is in
every state the worker reaches, in particular at the start and at the end of
every iteration. -/
theorem gpu_binding_symmetric (env : Env) (e : DownloadQueueEntry) (t : State)
    (ht : t.pc = .download e) (g : GLState)
    (acts : List Action) (s : State) (hrun : run env acts init = some s) :
    (entryTrace env e).filter isGlCall
      = [ .glBindFramebuffer env.read_buffer_,
          .glFramebufferTexture2D e.texture.texture,
          .glReadPixels e.texture.width e.texture.height,
          .glFramebufferTexture2D 0,
          .glBindFramebuffer 0 ] ∧
    ProcessLoop env t
      = some { t with
          pc := .loopHead,
          trace := t.trace ++
            ([ .glBindFramebuffer env.read_buffer_,
               .glFramebufferTexture2D e.texture.texture,
               .glReadPixels e.texture.width e.texture.height,
               .glFramebufferTexture2D 0,
               .glBindFramebuffer 0 ] ++ writeCalls env e) } ∧
    (writeCalls env e).filter isGlCall = [] ∧
    glState env g (entryTrace env e) = { read_framebuffer := 0, color_attachment := 0 } ∧
    glState env glInit s.trace = { read_framebuffer := 0, color_attachment := 0 } := by
  refine ⟨?_, ?_, filter_isGlCall_writeCalls env e, glState_entryTrace env g e, ?_⟩
  · simp [entryTrace, downloadCalls, gpuCalls, List.filter_append, filter_isGlCall_writeCalls,
      isGlCall]
  · obtain ⟨q, c, pc, b, tr⟩ := t
    simp only at ht
    subst ht
    simp [ProcessLoop, downloadCalls, gpuCalls]
  · rcases inv_shape env _ s (inv_reachable env acts s hrun) with
      ⟨-, ht⟩ | ⟨done, rest, -, -, hsh⟩
    · rw [ht]; rfl
    · have hl := glState_loopTrace env done
      rcases hsh with ⟨-, ht⟩ | ⟨-, -, ht | ⟨x, -, ht⟩⟩ <;> rw [ht]
      · rw [glState_append, hl]; simp [glState, glApply, glInit]
      · exact hl
      · rw [glState_append, hl]; simp [glState, glApply, glInit]

/-- Witness for C9: the iteration for `a.exr`, started
with framebuffer 5 bound and texture 9 attached. -/
theorem gpu_binding_symmetric_witness :
    run sampleEnv oneIteration init
      = some (stateAfter sampleEnv oneIteration) ∧
    (entryTrace sampleEnv entryA).filter isGlCall
      = [ .glBindFramebuffer sampleEnv.read_buffer_,
          .glFramebufferTexture2D entryA.texture.texture,
          .glReadPixels entryA.texture.width entryA.texture.height,
          .glFramebufferTexture2D 0,
          .glBindFramebuffer 0 ] ∧
    glState sampleEnv { read_framebuffer := 5, color_attachment := 9 }
        (entryTrace sampleEnv entryA)
      = { read_framebuffer := 0, color_attachment := 0 } ∧
    glState sampleEnv glInit (stateAfter sampleEnv oneIteration).trace
      = { read_framebuffer := 0, color_attachment := 0 } :=
  ⟨by decide,
    (gpu_binding_symmetric sampleEnv entryA
      ⟨[entryB], false, .download entryA, 16, [.glGenFramebuffers, .takeFirst entryA]⟩ rfl
      { read_framebuffer := 5, color_attachment := 9 } oneIteration
      (stateAfter sampleEnv oneIteration) (by decide)).1,
    (gpu_binding_symmetric sampleEnv entryA
      ⟨[entryB], false, .download entryA, 16, [.glGenFramebuffers, .takeFirst entryA]⟩ rfl
      { read_framebuffer := 5, color_attachment := 9 } oneIteration
      (stateAfter sampleEnv oneIteration) (by decide)).2.2.2.1,
    (gpu_binding_symmetric sampleEnv entryA
      ⟨[entryB], false, .download entryA, 16, [.glGenFramebuffers, .takeFirst entryA]⟩ rfl
      { read_framebuffer := 5, color_attachment := 9 } oneIteration
      (stateAfter sampleEnv oneIteration) (by decide)).2.2.2.2⟩

/-! ## Lifetime of the readback framebuffer -/

theorem isLifecycle_entryTrace (env : Env) (e : DownloadQueueEntry) :
    ∀ ev ∈ entryTrace env e, isLifecycle ev = false := by
  intro ev hev
  simp only [entryTrace, downloadCalls, gpuCalls, writeCalls] at hev
  split at hev <;> simp at hev <;> rcases hev with h | h | h | h | h | h | h <;>
    first
      | (subst h; rfl)
      | (rcases h with h | h | h | h <;> subst h <;> rfl)

/-- C10: in every run of `ProcessLoop` that has returned, whatever was queued
and whichever test saw the flag, the trace is the generation of the
framebuffer, then the complete iterations of the dequeued entries, then the
deletion of the framebuffer; no iteration generates or deletes a framebuffer,
so the framebuffer is generated exactly once, first, and deleted exactly once,
last. -/
theorem framebuffer_once (env : Env) (acts : List Action) (s : State)
    (hrun : run env acts init = some s) (hfin : s.pc = .finished) :
    s.trace = .glGenFramebuffers :: (dequeued s.trace).flatMap (entryTrace env)
      ++ [.glDeleteFramebuffers] ∧
    (∀ ev ∈ (dequeued s.trace).flatMap (entryTrace env), isLifecycle ev = false) ∧
    s.trace.filter isLifecycle = [.glGenFramebuffers, .glDeleteFramebuffers] := by
  rcases inv_shape env _ s (inv_reachable env acts s hrun) with
    ⟨hp, -⟩ | ⟨done, rest, -, -, hsh⟩
  · rw [hfin] at hp; cases hp
  · rcases hsh with ⟨-, ht⟩ | ⟨hne, -⟩
    · have hd : dequeued s.trace = done := by
        rw [ht, dequeued_append, dequeued_loopTrace]
        simp [dequeued]
      have hq : ∀ ev ∈ done.flatMap (entryTrace env), isLifecycle ev = false := by
        intro ev hev
        rw [List.mem_flatMap] at hev
        obtain ⟨e, -, he⟩ := hev
        exact isLifecycle_entryTrace env e ev he
      have hf : (done.flatMap (entryTrace env)).filter isLifecycle = [] := by
        rw [List.filter_eq_nil_iff]
        intro ev hev
        simp [hq ev hev]
      rw [hd]
      refine ⟨by rw [ht]; simp [loopTrace], hq, ?_⟩
      rw [ht]
      simp [loopTrace, List.filter_append, hf, isLifecycle, List.filter_cons]
    · exact absurd hfin hne

/-- Witness for C10: one entry handled, then the flag is set and
seen at the loop head. -/
theorem framebuffer_once_witness :
    run sampleEnv cancelledRun init = some (stateAfter sampleEnv cancelledRun) ∧
    (stateAfter sampleEnv cancelledRun).pc = .finished ∧
    (stateAfter sampleEnv cancelledRun).trace.filter isLifecycle
      = [.glGenFramebuffers, .glDeleteFramebuffers] :=
  ⟨by decide, by decide,
    (framebuffer_once sampleEnv cancelledRun (stateAfter sampleEnv cancelledRun)
      (by decide) (by decide)).2.2⟩

end Olive
